import Mathlib

set_option maxRecDepth 10000

/-! A verification development for the activations-buffer module (`buffer.py`):
an `ActivationsBufferConfig` of sizing and identity parameters and an
`ActivationsBuffer` holding a fixed-capacity store of model-activation vectors
that is refilled from a corpus-driven model run whenever capacity runs low.

Modelling conventions:
* Python unbounded integers are `Nat`/`Int`; the low-water check in `next` is
  done in `Int` because the Python subtraction may go negative.
* The text corpus is abstracted to the list of its sequences' token lengths;
  the model collaborator (opaque, out of scope) produces for sequence index
  `s` and token position `p` an activation matrix tagged `(s, p)` with shape
  (number of layers, activation width); a batch is padded to its longest
  sequence, so every sequence of a batch contributes positions up to that
  common padded length, exactly as the stacked cache tensor does.
* torch's process-global generator is modelled as an explicit `Nat` state with
  a deterministic `randperm`; `datasets.shuffle` is modelled as a
  seed-determined permutation (a rotation), and the `ambient` parameters stand
  for whatever entropy the libraries hold when no seed is applied.
* Tensor allocation identity (needed to state whether the store is replaced or
  mutated in place) is modelled by an allocation counter: `torch.roll` returns
  a freshly allocated tensor, slice assignment mutates the current one.
* A call that Python would not return from normally (an uncaught error, or a
  refill loop that never makes progress) is modelled by `Option`/fuel: the
  refill loop runs at most `buffer_pointer` rounds, which suffices whenever
  every round writes at least one vector, and yields `none` otherwise.
-/

/-- A Python value that may appear as an element of the `layers` argument:
the constructor does not check that the elements are integers. -/
inductive PyVal where
  | vint (i : Int)
  | vstr (s : String)
deriving DecidableEq

/-- How a `PyVal` renders inside the f-string `f"blocks.{layer}.{act_site}"`. -/
def PyVal.toStr : PyVal → String
  | .vint i => toString i
  | .vstr s => s

/-- Python's binary `max` on two values: comparing an int with a str raises
`TypeError`, modelled as `none`. -/
def pyMax2 : PyVal → PyVal → Option PyVal
  | .vint a, .vint b => some (.vint (max a b))
  | .vstr a, .vstr b => some (.vstr (max a b))
  | _, _ => none

/-- Python's `max` over a list (used for `final_layer = max(layers)`):
errors on an empty list and on incomparable elements. -/
def pyMax : List PyVal → Option PyVal
  | [] => none
  | x :: xs => xs.foldl (fun acc v => acc.bind (fun m => pyMax2 m v)) (some x)

/-- `ActivationsBufferConfig` fields, in the order the constructor assigns
them.  `act_size = none` models Python `None` ("resolve from the model"). -/
structure ActivationsBufferConfig where
  model_name : String
  layers : List PyVal
  dataset_name : String
  act_names : List String
  dataset_split : Option String
  buffer_size : Nat
  min_capacity : Nat
  model_batch_size : Nat
  samples_per_seq : Nat
  act_size : Option Nat
  seed : Option Int
  device : String
  dtype : String
  final_layer : PyVal
deriving DecidableEq

/-- The `ActivationsBufferConfig` constructor.  Its only explicit check is
`assert isinstance(layers, list) and len(layers) > 0` (the `isinstance`
conjunct is enforced here by the type of `layers`); `max(layers)` additionally
raises on mixed element types.  No sizing parameter is validated.  `none`
models the constructor raising before returning. -/
def ActivationsBufferConfig.build (model_name : String) (layers : List PyVal)
    (dataset_name : String) (act_site : String) (dataset_split : Option String)
    (buffer_size min_capacity model_batch_size samples_per_seq : Nat)
    (act_size : Option Nat) (seed : Option Int) (device dtype : String) :
    Option ActivationsBufferConfig :=
  if layers.length > 0 then
    (pyMax layers).map (fun fl =>
      { model_name := model_name
        layers := layers
        dataset_name := dataset_name
        act_names := layers.map (fun l => "blocks." ++ l.toStr ++ "." ++ act_site)
        dataset_split := dataset_split
        buffer_size := buffer_size
        min_capacity := min_capacity
        model_batch_size := model_batch_size
        samples_per_seq := samples_per_seq
        act_size := act_size
        seed := seed
        device := device
        dtype := dtype
        final_layer := fl })
  else none

/-- The activation width in effect (after construction this is always the
resolved `some` value). -/
def actWidth (cfg : ActivationsBufferConfig) : Nat := cfg.act_size.getD 0

/-- An activation matrix of one sampled vector: shape (layers, width), the
entry for every layer/unit tagged by (dataset sequence index, token
position) — the model collaborator's output is opaque, only its shape and
provenance matter. -/
abbrev Mat := List (List (Nat × Nat))

/-- One store slot: `none` is the zero-fill from the initial allocation,
`some m` a written activation matrix. -/
abbrev Cell := Option Mat

/-- The activation matrix the (opaque) model yields for sequence `s`,
position `p`. -/
def mkAct (cfg : ActivationsBufferConfig) (s p : Nat) : Mat :=
  List.replicate cfg.layers.length (List.replicate (actWidth cfg) (s, p))

/-- Deterministic model of `torch.randperm(n)` driven by the global generator
state: some state-determined permutation of `[0, n)`, advancing the state. -/
def randperm (n state : Nat) : List Nat × Nat :=
  ((List.range n).rotate state, state + 1)

/-- Deterministic model of `datasets.shuffle(seed=...)`: a seed-determined
permutation (a rotation); with `seed=None` the library draws from its own
entropy, represented by `ambient`.  Note the code passes `cfg.seed` straight
through, so seed `0` does reach the shuffle. -/
def shuffleDataset (seed : Option Int) (ambient : Nat) (l : List Nat) : List Nat :=
  match seed with
  | some s => l.rotate s.natAbs
  | none => l.rotate ambient

/-- Observability record of one iteration of the refill loop. -/
structure RoundInfo where
  bpBefore : Nat
  requested : Nat
  dpBefore : Nat
  dpAfter : Nat
  got : Nat
  pos : Nat
  positions : List Nat
  sampled : Nat
  writeStart : Nat
  written : Nat
deriving DecidableEq

/-- The mutable state of an `ActivationsBuffer` (the Python object's fields,
plus the allocation counter and observability traces). -/
structure BufferState where
  cfg : ActivationsBufferConfig
  dataset : List Nat
  dataset_pointer : Nat
  buffer : List Cell
  buffer_pointer : Nat
  rng : Nat
  storeId : Nat
  nextAlloc : Nat
  refreshes : Nat
  rounds : List RoundInfo
deriving DecidableEq

/-- `ceil(a / b)` on naturals (Python `math.ceil` of an exact division). -/
def ceilDiv (a b : Nat) : Nat := (a + b - 1) / b

/-- This round's sequence batch size:
`min(ceil(buffer_pointer / samples_per_seq), model_batch_size)`. -/
def batchSizeOf (st : BufferState) : Nat :=
  min (ceilDiv st.buffer_pointer st.cfg.samples_per_seq) st.cfg.model_batch_size

/-- Dataset indices of this round's sequences: the Python slice
`dataset['text'][dp : dp + batch_size]` truncates at the corpus end. -/
def seqIdxsOf (st : BufferState) : List Nat :=
  ((List.range st.dataset.length).drop st.dataset_pointer).take (batchSizeOf st)

/-- Token lengths of this round's sequences (same truncating slice). -/
def seqLensOf (st : BufferState) : List Nat :=
  (st.dataset.drop st.dataset_pointer).take (batchSizeOf st)

/-- The padded length of the tokenized batch: the stacked cache tensor has
`shape[-3]` equal to the longest sequence of the batch. -/
def posOf (st : BufferState) : Nat := (seqLensOf st).foldl Nat.max 0

/-- The sampled positions of this round:
`torch.randperm(acts.shape[-3])[:samples_per_seq]` — one draw applied to
every sequence of the batch. -/
def positionsOf (st : BufferState) : List Nat :=
  (randperm (posOf st) st.rng).1.take st.cfg.samples_per_seq

/-- The flattened sampled activations of this round, batch-major:
`acts[:, perm[:samples_per_seq]].flatten(0, 1)`. -/
def actsOf (st : BufferState) : List Mat :=
  ((seqIdxsOf st).map (fun s => (positionsOf st).map (fun p => mkAct st.cfg s p))).flatten

/-- `new_acts = min(acts.shape[0], buffer_pointer)`: the number of sampled
vectors actually written, the rest are discarded. -/
def newActsOf (st : BufferState) : Nat := min (actsOf st).length st.buffer_pointer

/-- In-place slice assignment `buffer[start : start + vals.length] = vals`
(the Python statement's left slice length and right operand length agree,
see the refill round below). -/
def writeSeg (l : List Cell) (start : Nat) (vals : List Mat) : List Cell :=
  l.take start ++ vals.map some ++ l.drop (start + vals.length)

/-- The observability record of the refill round taken from state `st`. -/
def roundRec (st : BufferState) : RoundInfo :=
  { bpBefore := st.buffer_pointer
    requested := batchSizeOf st
    dpBefore := st.dataset_pointer
    dpAfter := (st.dataset_pointer + batchSizeOf st) % st.dataset.length
    got := (seqLensOf st).length
    pos := posOf st
    positions := positionsOf st
    sampled := (actsOf st).length
    writeStart := st.cfg.buffer_size - st.buffer_pointer
    written := newActsOf st }

/-- One iteration of the refill `while` loop. -/
def roundStep (st : BufferState) : BufferState :=
  { st with
    dataset_pointer := (st.dataset_pointer + batchSizeOf st) % st.dataset.length
    buffer := writeSeg st.buffer (st.cfg.buffer_size - st.buffer_pointer)
      ((actsOf st).take (newActsOf st))
    buffer_pointer := st.buffer_pointer - newActsOf st
    rng := (randperm (posOf st) st.rng).2
    rounds := st.rounds ++ [roundRec st] }

/-- The refill `while buffer_pointer > 0` loop, fuelled: `none` models a loop
that fails to make progress within `fuel` rounds (Python would then never
return). -/
def refreshLoop (fuel : Nat) (st : BufferState) : Option BufferState :=
  match fuel with
  | 0 => if st.buffer_pointer = 0 then some st else none
  | f + 1 =>
    if st.buffer_pointer = 0 then some st
    else refreshLoop f (roundStep st)

/-- `ActivationsBuffer.refresh`: roll the store left by `buffer_pointer`
(`torch.roll` allocates a fresh tensor), then loop refilling the vacated tail.
The closing `assert buffer_pointer == 0` always holds on the `some` branch,
since the loop only exits at `buffer_pointer = 0`.  `refreshes` counts the
calls (each one is announced to the consumer). -/
def refresh (st : BufferState) : Option BufferState :=
  let st1 := { st with
    buffer := st.buffer.rotate st.buffer_pointer
    storeId := st.nextAlloc
    nextAlloc := st.nextAlloc + 1
    refreshes := st.refreshes + 1 }
  refreshLoop st.buffer_pointer st1

/-- Python's `batch or 1`: `None` and `0` are falsy, so both mean `1`. -/
def effCount (batch : Option Nat) : Nat :=
  match batch with
  | none => 1
  | some 0 => 1
  | some (b + 1) => b + 1

/-- What `next` returns: a single vector (`batch=None`) or a slice. -/
inductive NextOut where
  | single (c : Cell)
  | batchOut (cs : List Cell)
deriving DecidableEq

/-- The low-water pre-check of `next`:
`buffer_size - (buffer_pointer + (batch or 1)) < min_capacity`, computed in
`Int` exactly as Python computes it (the subtraction may go negative). -/
def lowWater (st : BufferState) (batch : Option Nat) : Prop :=
  (st.cfg.buffer_size : Int) - (st.buffer_pointer + (effCount batch : Nat)) <
    st.cfg.min_capacity

instance (st : BufferState) (batch : Option Nat) : Decidable (lowWater st batch) := by
  unfold lowWater; exact inferInstance

/-- `ActivationsBuffer.next(batch)`: refill first when
`buffer_size - (buffer_pointer + (batch or 1)) < min_capacity`, then return
`buffer[buffer_pointer]` (for `batch=None`; an out-of-range index raises,
modelled `none`) or the slice `buffer[buffer_pointer : buffer_pointer+batch]`,
and advance the pointer by `batch or 1`. -/
def next (st : BufferState) (batch : Option Nat) : Option (NextOut × BufferState) :=
  (if lowWater st batch then refresh st else some st).bind (fun st1 =>
    (match batch with
      | none => (st1.buffer.drop st1.buffer_pointer).head?.map NextOut.single
      | some b => some (NextOut.batchOut ((st1.buffer.drop st1.buffer_pointer).take b))
    ).map (fun out =>
      (out, { st1 with buffer_pointer := st1.buffer_pointer + effCount batch })))

/-- `ActivationsBuffer.__init__`: seed torch's generator only when the seed is
truthy (`if cfg.seed:` — `None` and `0` both skip it), shuffle and flatten
the corpus (the seed, even `0`, is passed through), resolve `act_size` from
the model when unset (`d_mlp` is the model's reported hidden width), allocate
the zero-filled store, set `buffer_pointer = buffer_size` and run the initial
refill.  `torchState` is the generator state the process happens to hold,
`ambient` the shuffle entropy used when no seed reaches the library. -/
def initialState (cfg : ActivationsBufferConfig) (corpus : List Nat)
    (d_mlp : Nat) (torchState : Nat) (ambient : Nat) : BufferState :=
  { cfg := { cfg with act_size := some (cfg.act_size.getD d_mlp) }
    dataset := shuffleDataset cfg.seed ambient corpus
    dataset_pointer := 0
    buffer := List.replicate cfg.buffer_size none
    buffer_pointer := cfg.buffer_size
    rng := match cfg.seed with
      | some s => if s = 0 then torchState else s.natAbs
      | none => torchState
    storeId := 0
    nextAlloc := 1
    refreshes := 0
    rounds := [] }

/-- Construction proper: set up the state above, then run the initial refill. -/
def ActivationsBuffer.init (cfg : ActivationsBufferConfig) (corpus : List Nat)
    (d_mlp : Nat) (torchState : Nat) (ambient : Nat) : Option BufferState :=
  refresh (initialState cfg corpus d_mlp torchState ambient)

/-- `n` successive `next(1)` reads, threading only the state (the slice each
read returns is discarded, as a consumer driving the buffer would). -/
def iterNext1 : Nat → Option BufferState → Option BufferState
  | 0, s => s
  | n + 1, s => iterNext1 n (s.bind (fun st => (next st (some 1)).map Prod.snd))

/-! ### Concrete fixtures used by witnesses and counterexamples -/

/-- A small concrete configuration: capacity 4, low-water mark 2, two samples
per sequence, model batch size 2, one layer, activation width 1. -/
def cfgA : ActivationsBufferConfig :=
  { model_name := "m", layers := [.vint 0], dataset_name := "d"
    act_names := ["blocks.0.mlp.hook_pre"], dataset_split := none
    buffer_size := 4, min_capacity := 2, model_batch_size := 2
    samples_per_seq := 2, act_size := some 1, seed := none
    device := "cpu", dtype := "bf16", final_layer := .vint 0 }

/-- `cfgA` with one sample per sequence, batch size 4, low-water mark 1. -/
def cfg7 : ActivationsBufferConfig :=
  { cfgA with samples_per_seq := 1, model_batch_size := 4, min_capacity := 1 }

/-- `cfg7` with the seed explicitly configured to `0`. -/
def cfg9 : ActivationsBufferConfig := { cfg7 with seed := some 0 }

/-- `cfgA` with a nonzero seed. -/
def cfgB : ActivationsBufferConfig := { cfgA with seed := some 7 }

/-- Fallback state for `Option.getD` (never reached in the witnesses). -/
def dummyState : BufferState :=
  { cfg := cfgA, dataset := [], dataset_pointer := 0, buffer := []
    buffer_pointer := 0, rng := 0, storeId := 0, nextAlloc := 0
    refreshes := 0, rounds := [] }

/-- Fallback round record for `Option.getD`/`List.getD`. -/
def dummyRound : RoundInfo :=
  { bpBefore := 0, requested := 0, dpBefore := 0, dpAfter := 0, got := 0
    pos := 0, positions := [], sampled := 0, writeStart := 0, written := 0 }

/-- The buffer constructed from `cfgA` over a corpus of two length-3
sequences. -/
def bufA : BufferState := (ActivationsBuffer.init cfgA [3, 3] 7 0 0).getD dummyState

/-- `bufA` after one size-1 read. -/
def bufA1 : BufferState :=
  ((next bufA (some 1)).getD (NextOut.batchOut [], dummyState)).2

/-- `bufA` after two size-1 reads: read cursor 2, so free capacity equals the
low-water mark exactly. -/
def bufA2 : BufferState :=
  ((next bufA1 (some 1)).getD (NextOut.batchOut [], dummyState)).2

/-- The result of a size-2 read on the freshly constructed buffer. -/
def pairA3 : NextOut × BufferState :=
  (next bufA (some 2)).getD (NextOut.batchOut [], dummyState)

/-- The result of an explicit size-0 read on the freshly constructed buffer. -/
def pairA0 : NextOut × BufferState :=
  (next bufA (some 0)).getD (NextOut.batchOut [], dummyState)

/-- A refill run from `bufA2` (deficit 2). -/
def refreshedA : BufferState := (refresh bufA2).getD dummyState

/-! ### Invariants and helper predicates -/

/-- A store cell holds a written activation matrix of shape
(number of layers, activation width). -/
def goodCellB (L W : Nat) : Cell → Bool
  | none => false
  | some m => m.length == L && m.all (fun r => r.length == W)

/-- The cell is a written activation matrix of the shape the config fixes. -/
def cellOK (cfg : ActivationsBufferConfig) (c : Cell) : Prop :=
  goodCellB cfg.layers.length (actWidth cfg) c = true

instance (cfg : ActivationsBufferConfig) (c : Cell) : Decidable (cellOK cfg c) := by
  unfold cellOK; exact inferInstance

/-- The environment facts that make every refill round productive: a nonempty
corpus of nonempty sequences, positive samples-per-sequence and positive
model batch size (the spec's config invariant restricted to what the refill
loop needs). -/
def corpusOK (st : BufferState) : Prop :=
  st.dataset ≠ [] ∧ (∀ l ∈ st.dataset, 1 ≤ l) ∧
    1 ≤ st.cfg.samples_per_seq ∧ 1 ≤ st.cfg.model_batch_size

/-- The refill-loop invariant: the store splits into a filled head of written
cells and a vacant tail of length `buffer_pointer`. -/
def BufInv (st : BufferState) : Prop :=
  st.buffer_pointer ≤ st.cfg.buffer_size ∧
  ∃ pre post, st.buffer = pre ++ post ∧
    pre.length = st.cfg.buffer_size - st.buffer_pointer ∧
    post.length = st.buffer_pointer ∧
    ∀ c ∈ pre, cellOK st.cfg c

/-- What every refill round satisfies, read off its observability record. -/
def roundOK (C len : Nat) (r : RoundInfo) : Prop :=
  r.writeStart = C - r.bpBefore ∧
  r.written = min r.sampled r.bpBefore ∧
  r.writeStart + r.written ≤ C ∧
  r.got = min r.requested (len - r.dpBefore) ∧
  r.dpAfter < len

/-! ### Basic facts about the refill round -/

lemma le_foldl_max (l : List Nat) (a : Nat) : a ≤ l.foldl Nat.max a := by
  induction l generalizing a with
  | nil => exact Nat.le_refl a
  | cons x tl ih => exact Nat.le_trans (Nat.le_max_left a x) (ih (Nat.max a x))

lemma mem_le_foldl_max {x : Nat} {l : List Nat} (h : x ∈ l) (a : Nat) :
    x ≤ l.foldl Nat.max a := by
  induction l generalizing a with
  | nil => cases h
  | cons y tl ih =>
    rcases List.mem_cons.1 h with rfl | h'
    · exact Nat.le_trans (Nat.le_max_right a x) (le_foldl_max tl (Nat.max a x))
    · exact ih h' (Nat.max a y)

lemma length_flatten_const {α β : Type} (l : List α) (f : α → List β) (k : Nat)
    (h : ∀ a ∈ l, (f a).length = k) :
    ((l.map f).flatten).length = l.length * k := by
  induction l with
  | nil => simp
  | cons a tl ih =>
    simp only [List.map_cons, List.flatten_cons, List.length_append, List.length_cons]
    rw [h a (List.mem_cons_self a tl), ih (fun x hx => h x (List.mem_cons_of_mem a hx))]
    ring

lemma writeSeg_decomp (pre post : List Cell) (vals : List Mat) :
    writeSeg (pre ++ post) pre.length vals =
      pre ++ vals.map some ++ post.drop vals.length := by
  unfold writeSeg
  rw [List.take_left, ← List.drop_drop, List.drop_left]

lemma roundStep_cfg (st : BufferState) : (roundStep st).cfg = st.cfg := rfl

lemma roundStep_dataset (st : BufferState) : (roundStep st).dataset = st.dataset := rfl

lemma roundStep_storeId (st : BufferState) : (roundStep st).storeId = st.storeId := rfl

lemma roundStep_nextAlloc (st : BufferState) : (roundStep st).nextAlloc = st.nextAlloc := rfl

lemma roundStep_refreshes (st : BufferState) : (roundStep st).refreshes = st.refreshes := rfl

lemma roundStep_bp (st : BufferState) :
    (roundStep st).buffer_pointer = st.buffer_pointer - newActsOf st := rfl

lemma roundStep_dp (st : BufferState) :
    (roundStep st).dataset_pointer =
      (st.dataset_pointer + batchSizeOf st) % st.dataset.length := rfl

lemma roundStep_buffer (st : BufferState) :
    (roundStep st).buffer = writeSeg st.buffer (st.cfg.buffer_size - st.buffer_pointer)
      ((actsOf st).take (newActsOf st)) := rfl

lemma roundStep_rounds (st : BufferState) :
    (roundStep st).rounds = st.rounds ++ [roundRec st] := rfl

lemma mkAct_good (cfg : ActivationsBufferConfig) (s p : Nat) :
    goodCellB cfg.layers.length (actWidth cfg) (some (mkAct cfg s p)) = true := by
  simp [goodCellB, mkAct, List.all_eq_true, List.eq_of_mem_replicate]

lemma actsOf_good {st : BufferState} {m : Mat} (h : m ∈ actsOf st) :
    cellOK st.cfg (some m) := by
  simp only [actsOf, List.mem_flatten, List.mem_map] at h
  obtain ⟨l, ⟨s, hs, rfl⟩, hm⟩ := h
  obtain ⟨p, hp, rfl⟩ := List.mem_map.1 hm
  exact mkAct_good st.cfg s p

lemma seqLensOf_length (st : BufferState) :
    (seqLensOf st).length = min (batchSizeOf st) (st.dataset.length - st.dataset_pointer) := by
  simp [seqLensOf]

lemma seqIdxsOf_length (st : BufferState) :
    (seqIdxsOf st).length = min (batchSizeOf st) (st.dataset.length - st.dataset_pointer) := by
  simp [seqIdxsOf]

lemma positionsOf_length (st : BufferState) :
    (positionsOf st).length = min st.cfg.samples_per_seq (posOf st) := by
  simp [positionsOf, randperm]

lemma actsOf_length (st : BufferState) :
    (actsOf st).length = (seqIdxsOf st).length * (positionsOf st).length := by
  refine length_flatten_const _ _ _ (fun a ha => ?_)
  simp

lemma batchSizeOf_pos {st : BufferState} (hsps : 1 ≤ st.cfg.samples_per_seq)
    (hmbs : 1 ≤ st.cfg.model_batch_size) (hbp : 1 ≤ st.buffer_pointer) :
    1 ≤ batchSizeOf st := by
  have h1 : 1 ≤ ceilDiv st.buffer_pointer st.cfg.samples_per_seq := by
    unfold ceilDiv
    rw [Nat.le_div_iff_mul_le (by omega)]
    omega
  exact le_min h1 hmbs

lemma posOf_pos {st : BufferState} (hlen : ∀ l ∈ st.dataset, 1 ≤ l)
    (hne : 1 ≤ (seqLensOf st).length) : 1 ≤ posOf st := by
  obtain ⟨x, hx⟩ := List.exists_mem_of_ne_nil (seqLensOf st)
    (by intro he; rw [he] at hne; simp at hne)
  have hxd : x ∈ st.dataset := List.mem_of_mem_drop (List.mem_of_mem_take hx)
  exact Nat.le_trans (hlen x hxd) (mem_le_foldl_max hx 0)

lemma newActsOf_pos {st : BufferState} (hc : corpusOK st)
    (hdp : st.dataset_pointer < st.dataset.length) (hbp : 1 ≤ st.buffer_pointer) :
    1 ≤ newActsOf st := by
  obtain ⟨hne, hlen, hsps, hmbs⟩ := hc
  have hbs := batchSizeOf_pos hsps hmbs hbp
  have hsl : 1 ≤ (seqLensOf st).length := by
    rw [seqLensOf_length]; exact le_min hbs (by omega)
  have hpos : 1 ≤ posOf st := posOf_pos hlen hsl
  have hpl : 1 ≤ (positionsOf st).length := by
    rw [positionsOf_length]; exact le_min hsps hpos
  have hal : 1 ≤ (actsOf st).length := by
    rw [actsOf_length, seqIdxsOf_length, ← seqLensOf_length]
    exact Nat.one_le_iff_ne_zero.2 (Nat.mul_ne_zero (by omega) (by omega))
  exact le_min hal hbp

lemma roundStep_BufInv {st : BufferState} (h : BufInv st) : BufInv (roundStep st) := by
  obtain ⟨hbp, pre, post, hbuf, hpre, hpost, hgood⟩ := h
  have hk : newActsOf st ≤ st.buffer_pointer := Nat.min_le_right _ _
  have hka : newActsOf st ≤ (actsOf st).length := Nat.min_le_left _ _
  have hvlen : ((actsOf st).take (newActsOf st)).length = newActsOf st := by
    rw [List.length_take]; omega
  constructor
  · rw [roundStep_cfg, roundStep_bp]; omega
  refine ⟨pre ++ ((actsOf st).take (newActsOf st)).map some,
    post.drop (newActsOf st), ?_, ?_, ?_, ?_⟩
  · rw [roundStep_buffer, hbuf,
      show st.cfg.buffer_size - st.buffer_pointer = pre.length from hpre.symm,
      writeSeg_decomp, hvlen]
  · rw [List.length_append, List.length_map, hvlen, hpre, roundStep_cfg, roundStep_bp]
    omega
  · rw [List.length_drop, hpost, roundStep_bp]
  · intro c hcmem
    rcases List.mem_append.1 hcmem with hcp | hcv
    · rw [roundStep_cfg]; exact hgood c hcp
    · obtain ⟨m, hm, rfl⟩ := List.mem_map.1 hcv
      rw [roundStep_cfg]
      exact actsOf_good (List.mem_of_mem_take hm)

lemma roundStep_roundOK {st : BufferState} (hbp : st.buffer_pointer ≤ st.cfg.buffer_size)
    (hdp : st.dataset_pointer < st.dataset.length) :
    roundOK st.cfg.buffer_size st.dataset.length (roundRec st) := by
  refine ⟨rfl, rfl, ?_, ?_, ?_⟩
  · have : newActsOf st ≤ st.buffer_pointer := Nat.min_le_right _ _
    show st.cfg.buffer_size - st.buffer_pointer + newActsOf st ≤ st.cfg.buffer_size
    omega
  · exact seqLensOf_length st
  · exact Nat.mod_lt _ (by omega)

/-! ### The refill loop -/

lemma refreshLoop_bp : ∀ (fuel : Nat) (st st' : BufferState),
    refreshLoop fuel st = some st' → st'.buffer_pointer = 0 := by
  intro fuel
  induction fuel with
  | zero =>
    intro st st' h
    unfold refreshLoop at h
    split at h
    · cases h; assumption
    · cases h
  | succ f ih =>
    intro st st' h
    unfold refreshLoop at h
    split at h
    · cases h; assumption
    · exact ih _ _ h

lemma refreshLoop_frame : ∀ (fuel : Nat) (st st' : BufferState),
    refreshLoop fuel st = some st' →
    st'.cfg = st.cfg ∧ st'.dataset = st.dataset ∧ st'.storeId = st.storeId ∧
      st'.nextAlloc = st.nextAlloc ∧ st'.refreshes = st.refreshes := by
  intro fuel
  induction fuel with
  | zero =>
    intro st st' h
    unfold refreshLoop at h
    split at h
    · cases h; exact ⟨rfl, rfl, rfl, rfl, rfl⟩
    · cases h
  | succ f ih =>
    intro st st' h
    unfold refreshLoop at h
    split at h
    · cases h; exact ⟨rfl, rfl, rfl, rfl, rfl⟩
    · have hx := ih (roundStep st) st' h
      exact ⟨hx.1.trans (roundStep_cfg st), hx.2.1.trans (roundStep_dataset st),
        hx.2.2.1.trans (roundStep_storeId st), hx.2.2.2.1.trans (roundStep_nextAlloc st),
        hx.2.2.2.2.trans (roundStep_refreshes st)⟩

lemma refreshLoop_inv : ∀ (fuel : Nat) (st st' : BufferState),
    refreshLoop fuel st = some st' → BufInv st → BufInv st' := by
  intro fuel
  induction fuel with
  | zero =>
    intro st st' h hi
    unfold refreshLoop at h
    split at h
    · cases h; exact hi
    · cases h
  | succ f ih =>
    intro st st' h hi
    unfold refreshLoop at h
    split at h
    · cases h; exact hi
    · exact ih _ _ h (roundStep_BufInv hi)

lemma refreshLoop_rounds : ∀ (fuel : Nat) (st st' : BufferState),
    refreshLoop fuel st = some st' → BufInv st →
    st.dataset_pointer < st.dataset.length →
    (∃ new, st'.rounds = st.rounds ++ new ∧
      ∀ r ∈ new, roundOK st.cfg.buffer_size st.dataset.length r) ∧
    st'.dataset_pointer < st.dataset.length := by
  intro fuel
  induction fuel with
  | zero =>
    intro st st' h hi hdp
    unfold refreshLoop at h
    split at h
    · cases h; exact ⟨⟨[], by simp, by simp⟩, hdp⟩
    · cases h
  | succ f ih =>
    intro st st' h hi hdp
    unfold refreshLoop at h
    split at h
    · cases h; exact ⟨⟨[], by simp, by simp⟩, hdp⟩
    · have hdp2 : (roundStep st).dataset_pointer < (roundStep st).dataset.length := by
        rw [roundStep_dp, roundStep_dataset]
        exact Nat.mod_lt _ (by omega)
      obtain ⟨⟨new2, hnew2, hok2⟩, hdp'⟩ := ih _ _ h (roundStep_BufInv hi) hdp2
      rw [roundStep_dataset] at hdp'
      refine ⟨⟨roundRec st :: new2, ?_, ?_⟩, hdp'⟩
      · rw [hnew2, roundStep_rounds, List.append_assoc]
        rfl
      · intro r hr
        rcases List.mem_cons.1 hr with rfl | hr2
        · exact roundStep_roundOK hi.1 hdp
        · have := hok2 r hr2
          rw [roundStep_cfg, roundStep_dataset] at this
          exact this

lemma refreshLoop_total : ∀ (fuel : Nat) (st : BufferState), corpusOK st → BufInv st →
    st.dataset_pointer < st.dataset.length → st.buffer_pointer ≤ fuel →
    (refreshLoop fuel st).isSome := by
  intro fuel
  induction fuel with
  | zero =>
    intro st hc hi hdp hf
    unfold refreshLoop
    have hz : st.buffer_pointer = 0 := by omega
    simp [hz]
  | succ f ih =>
    intro st hc hi hdp hf
    unfold refreshLoop
    by_cases hz : st.buffer_pointer = 0
    · simp [hz]
    · simp only [hz, if_false]
      have hprog := newActsOf_pos hc hdp (by omega)
      refine ih _ hc (roundStep_BufInv hi) ?_ ?_
      · rw [roundStep_dp, roundStep_dataset]
        exact Nat.mod_lt _ (by omega)
      · rw [roundStep_bp]; omega

/-! ### `refresh` -/

lemma refresh_frame {st st' : BufferState} (h : refresh st = some st') :
    st'.cfg = st.cfg ∧ st'.dataset = st.dataset ∧ st'.storeId = st.nextAlloc ∧
      st'.nextAlloc = st.nextAlloc + 1 ∧ st'.refreshes = st.refreshes + 1 ∧
      st'.buffer_pointer = 0 := by
  unfold refresh at h
  have hf := refreshLoop_frame _ _ _ h
  have hb := refreshLoop_bp _ _ _ h
  exact ⟨hf.1, hf.2.1, hf.2.2.1, hf.2.2.2.1, hf.2.2.2.2, hb⟩

lemma refresh_inv {st st' : BufferState} (h : refresh st = some st')
    (hbp : st.buffer_pointer ≤ st.cfg.buffer_size)
    (hlen : st.buffer.length = st.cfg.buffer_size)
    (hgood : ∀ c ∈ st.buffer.drop st.buffer_pointer, cellOK st.cfg c) :
    st'.buffer.length = st.cfg.buffer_size ∧ (∀ c ∈ st'.buffer, cellOK st.cfg c) ∧
      st'.buffer_pointer = 0 := by
  have hfr := refresh_frame h
  unfold refresh at h
  have hrot : st.buffer.rotate st.buffer_pointer =
      st.buffer.drop st.buffer_pointer ++ st.buffer.take st.buffer_pointer :=
    List.rotate_eq_drop_append_take (by omega)
  have hinv1 : BufInv { st with
      buffer := st.buffer.rotate st.buffer_pointer
      storeId := st.nextAlloc
      nextAlloc := st.nextAlloc + 1
      refreshes := st.refreshes + 1 } := by
    refine ⟨hbp, st.buffer.drop st.buffer_pointer, st.buffer.take st.buffer_pointer,
      hrot, ?_, ?_, hgood⟩
    · show (st.buffer.drop st.buffer_pointer).length = st.cfg.buffer_size - st.buffer_pointer
      rw [List.length_drop, hlen]
    · show (st.buffer.take st.buffer_pointer).length = st.buffer_pointer
      rw [List.length_take, hlen]; omega
  have hinv' := refreshLoop_inv _ _ _ h hinv1
  obtain ⟨hbp', pre, post, hbuf, hpre, hpost, hgood'⟩ := hinv'
  have hz := refreshLoop_bp _ _ _ h
  have hcfg' : st'.cfg = st.cfg := hfr.1
  have hpostnil : post = [] := by
    have : post.length = 0 := by rw [hpost, hz]
    exact List.eq_nil_of_length_eq_zero this
  subst hpostnil
  rw [List.append_nil] at hbuf
  refine ⟨?_, ?_, hz⟩
  · rw [hbuf, hpre, hz, hcfg']; omega
  · intro c hc
    rw [hbuf] at hc
    have := hgood' c hc
    rw [hcfg'] at this
    exact this

lemma refresh_rounds {st st' : BufferState} (h : refresh st = some st')
    (hbp : st.buffer_pointer ≤ st.cfg.buffer_size)
    (hlen : st.buffer.length = st.cfg.buffer_size)
    (hgood : ∀ c ∈ st.buffer.drop st.buffer_pointer, cellOK st.cfg c)
    (hdp : st.dataset_pointer < st.dataset.length) :
    (∃ new, st'.rounds = st.rounds ++ new ∧
      ∀ r ∈ new, roundOK st.cfg.buffer_size st.dataset.length r) ∧
    st'.dataset_pointer < st.dataset.length := by
  unfold refresh at h
  have hrot : st.buffer.rotate st.buffer_pointer =
      st.buffer.drop st.buffer_pointer ++ st.buffer.take st.buffer_pointer :=
    List.rotate_eq_drop_append_take (by omega)
  have hinv1 : BufInv { st with
      buffer := st.buffer.rotate st.buffer_pointer
      storeId := st.nextAlloc
      nextAlloc := st.nextAlloc + 1
      refreshes := st.refreshes + 1 } := by
    refine ⟨hbp, st.buffer.drop st.buffer_pointer, st.buffer.take st.buffer_pointer,
      hrot, ?_, ?_, hgood⟩
    · show (st.buffer.drop st.buffer_pointer).length = st.cfg.buffer_size - st.buffer_pointer
      rw [List.length_drop, hlen]
    · show (st.buffer.take st.buffer_pointer).length = st.buffer_pointer
      rw [List.length_take, hlen]; omega
  exact refreshLoop_rounds st.buffer_pointer { st with
      buffer := st.buffer.rotate st.buffer_pointer
      storeId := st.nextAlloc
      nextAlloc := st.nextAlloc + 1
      refreshes := st.refreshes + 1 } st' h hinv1 hdp

lemma refresh_total {st : BufferState} (hc : corpusOK st)
    (hbp : st.buffer_pointer ≤ st.cfg.buffer_size)
    (hlen : st.buffer.length = st.cfg.buffer_size)
    (hgood : ∀ c ∈ st.buffer.drop st.buffer_pointer, cellOK st.cfg c)
    (hdp : st.dataset_pointer < st.dataset.length) :
    (refresh st).isSome := by
  unfold refresh
  have hrot : st.buffer.rotate st.buffer_pointer =
      st.buffer.drop st.buffer_pointer ++ st.buffer.take st.buffer_pointer :=
    List.rotate_eq_drop_append_take (by omega)
  have hinv1 : BufInv { st with
      buffer := st.buffer.rotate st.buffer_pointer
      storeId := st.nextAlloc
      nextAlloc := st.nextAlloc + 1
      refreshes := st.refreshes + 1 } := by
    refine ⟨hbp, st.buffer.drop st.buffer_pointer, st.buffer.take st.buffer_pointer,
      hrot, ?_, ?_, hgood⟩
    · show (st.buffer.drop st.buffer_pointer).length = st.cfg.buffer_size - st.buffer_pointer
      rw [List.length_drop, hlen]
    · show (st.buffer.take st.buffer_pointer).length = st.buffer_pointer
      rw [List.length_take, hlen]; omega
  exact refreshLoop_total st.buffer_pointer { st with
      buffer := st.buffer.rotate st.buffer_pointer
      storeId := st.nextAlloc
      nextAlloc := st.nextAlloc + 1
      refreshes := st.refreshes + 1 } hc hinv1 hdp (Nat.le_refl _)

/-! ### Construction -/

lemma shuffleDataset_length (seed : Option Int) (a : Nat) (l : List Nat) :
    (shuffleDataset seed a l).length = l.length := by
  cases seed <;> simp [shuffleDataset]

lemma shuffleDataset_mem {x : Nat} {seed : Option Int} {a : Nat} {l : List Nat} :
    x ∈ shuffleDataset seed a l ↔ x ∈ l := by
  cases seed <;> simp [shuffleDataset, List.mem_rotate]

lemma initialState_entry (cfg : ActivationsBufferConfig) (corpus : List Nat) (d t a : Nat) :
    (initialState cfg corpus d t a).buffer_pointer ≤
        (initialState cfg corpus d t a).cfg.buffer_size ∧
      (initialState cfg corpus d t a).buffer.length =
        (initialState cfg corpus d t a).cfg.buffer_size ∧
      ∀ c ∈ (initialState cfg corpus d t a).buffer.drop
          (initialState cfg corpus d t a).buffer_pointer,
        cellOK (initialState cfg corpus d t a).cfg c := by
  refine ⟨Nat.le_refl _, ?_, ?_⟩
  · show (List.replicate cfg.buffer_size (none : Cell)).length = cfg.buffer_size
    simp
  · intro c hc
    have hnil : (initialState cfg corpus d t a).buffer.drop
        (initialState cfg corpus d t a).buffer_pointer = [] := by
      show (List.replicate cfg.buffer_size (none : Cell)).drop cfg.buffer_size = []
      rw [List.drop_eq_nil_iff]; simp
    rw [hnil] at hc
    cases hc

lemma initialState_corpusOK {cfg : ActivationsBufferConfig} {corpus : List Nat} {d t a : Nat}
    (h1 : corpus ≠ []) (h2 : ∀ l ∈ corpus, 1 ≤ l)
    (h3 : 1 ≤ cfg.samples_per_seq) (h4 : 1 ≤ cfg.model_batch_size) :
    corpusOK (initialState cfg corpus d t a) := by
  refine ⟨?_, ?_, h3, h4⟩
  · show shuffleDataset cfg.seed a corpus ≠ []
    intro he
    apply h1
    have := shuffleDataset_length cfg.seed a corpus
    rw [he] at this
    exact List.eq_nil_of_length_eq_zero this.symm
  · intro l hl
    exact h2 l (shuffleDataset_mem.1 hl)

lemma initialState_dp {cfg : ActivationsBufferConfig} {corpus : List Nat} {d t a : Nat}
    (h1 : corpus ≠ []) :
    (initialState cfg corpus d t a).dataset_pointer <
      (initialState cfg corpus d t a).dataset.length := by
  show 0 < (shuffleDataset cfg.seed a corpus).length
  rw [shuffleDataset_length]
  exact List.length_pos.2 h1

lemma init_total {cfg : ActivationsBufferConfig} {corpus : List Nat} {d t a : Nat}
    (h1 : corpus ≠ []) (h2 : ∀ l ∈ corpus, 1 ≤ l)
    (h3 : 1 ≤ cfg.samples_per_seq) (h4 : 1 ≤ cfg.model_batch_size) :
    (ActivationsBuffer.init cfg corpus d t a).isSome := by
  obtain ⟨he1, he2, he3⟩ := initialState_entry cfg corpus d t a
  exact refresh_total (initialState_corpusOK h1 h2 h3 h4) he1 he2 he3 (initialState_dp h1)

lemma init_spec {cfg : ActivationsBufferConfig} {corpus : List Nat} {d t a : Nat}
    {b : BufferState} (h : ActivationsBuffer.init cfg corpus d t a = some b)
    (hc : corpus ≠ []) :
    b.buffer_pointer = 0 ∧ b.buffer.length = cfg.buffer_size ∧
      (∀ c ∈ b.buffer, cellOK b.cfg c) ∧
      b.dataset_pointer < b.dataset.length ∧ b.refreshes = 1 ∧ b.storeId = 1 ∧
      b.nextAlloc = 2 ∧
      b.cfg = { cfg with act_size := some (cfg.act_size.getD d) } ∧
      b.dataset = shuffleDataset cfg.seed a corpus := by
  obtain ⟨he1, he2, he3⟩ := initialState_entry cfg corpus d t a
  have hfr := refresh_frame h
  have hinv := refresh_inv h he1 he2 he3
  have hrd := refresh_rounds h he1 he2 he3 (initialState_dp hc)
  have hcfg : b.cfg = { cfg with act_size := some (cfg.act_size.getD d) } := hfr.1
  have hds : b.dataset = shuffleDataset cfg.seed a corpus := hfr.2.1
  refine ⟨hfr.2.2.2.2.2, hinv.1, ?_, ?_, hfr.2.2.2.2.1, hfr.2.2.1, hfr.2.2.2.1, hcfg, hds⟩
  · intro c hcm
    have := hinv.2.1 c hcm
    rw [hcfg]
    exact this
  · rw [hds]
    exact hrd.2

/-! ### `next` -/

lemma effCount_pos (batch : Option Nat) : 1 ≤ effCount batch := by
  cases batch with
  | none => exact Nat.le_refl 1
  | some b => cases b with
    | zero => exact Nat.le_refl 1
    | succ n => exact Nat.succ_le_succ (Nat.zero_le n)

lemma effCount_eq {c : Nat} (h : 1 ≤ c) : effCount (some c) = c := by
  cases c with
  | zero => omega
  | succ n => rfl

lemma next_some_eq {st : BufferState} {b : Nat} {out : NextOut} {st' : BufferState}
    (h : next st (some b) = some (out, st')) :
    ∃ st1, ((lowWater st (some b) ∧ refresh st = some st1) ∨
        (¬ lowWater st (some b) ∧ st1 = st)) ∧
      out = NextOut.batchOut ((st1.buffer.drop st1.buffer_pointer).take b) ∧
      st' = { st1 with buffer_pointer := st1.buffer_pointer + effCount (some b) } := by
  unfold next at h
  by_cases hc : lowWater st (some b)
  · rw [if_pos hc] at h
    cases hr : refresh st with
    | none => rw [hr] at h; cases h
    | some st1 =>
      rw [hr] at h
      simp only [Option.some_bind, Option.map_some', Option.some.injEq, Prod.mk.injEq] at h
      exact ⟨st1, Or.inl ⟨hc, rfl⟩, h.1.symm, h.2.symm⟩
  · rw [if_neg hc] at h
    simp only [Option.some_bind, Option.map_some', Option.some.injEq, Prod.mk.injEq] at h
    exact ⟨st, Or.inr ⟨hc, rfl⟩, h.1.symm, h.2.symm⟩

lemma next_none_eq {st : BufferState} {out : NextOut} {st' : BufferState}
    (h : next st none = some (out, st')) :
    ∃ st1 c, ((lowWater st none ∧ refresh st = some st1) ∨
        (¬ lowWater st none ∧ st1 = st)) ∧
      (st1.buffer.drop st1.buffer_pointer).head? = some c ∧
      out = NextOut.single c ∧
      st' = { st1 with buffer_pointer := st1.buffer_pointer + 1 } := by
  unfold next at h
  by_cases hc : lowWater st none
  · rw [if_pos hc] at h
    cases hr : refresh st with
    | none => rw [hr] at h; cases h
    | some st1 =>
      rw [hr] at h
      cases hh : (st1.buffer.drop st1.buffer_pointer).head? with
      | none => rw [Option.some_bind] at h; simp only [hh] at h; cases h
      | some c =>
        rw [Option.some_bind] at h
        simp only [hh, Option.map_some', Option.some.injEq, Prod.mk.injEq] at h
        exact ⟨st1, c, Or.inl ⟨hc, rfl⟩, hh, h.1.symm, h.2.symm⟩
  · rw [if_neg hc] at h
    cases hh : (st.buffer.drop st.buffer_pointer).head? with
    | none => rw [Option.some_bind] at h; simp only [hh] at h; cases h
    | some c =>
      rw [Option.some_bind] at h
      simp only [hh, Option.map_some', Option.some.injEq, Prod.mk.injEq] at h
      exact ⟨st, c, Or.inr ⟨hc, rfl⟩, hh, h.1.symm, h.2.symm⟩

lemma cellOK_isSome {cfg : ActivationsBufferConfig} {c : Cell} (h : cellOK cfg c) :
    c.isSome = true := by
  cases c with
  | none => cases h
  | some m => rfl

lemma next_one_no_refresh {st : BufferState} (h : ¬ lowWater st (some 1)) :
    next st (some 1) = some (NextOut.batchOut ((st.buffer.drop st.buffer_pointer).take 1),
      { st with buffer_pointer := st.buffer_pointer + 1 }) := by
  unfold next
  rw [if_neg h]
  rfl

lemma iterNext1_succ_right (n : Nat) (s : Option BufferState) :
    iterNext1 (n + 1) s =
      (iterNext1 n s).bind (fun st => (next st (some 1)).map Prod.snd) := by
  induction n generalizing s with
  | zero => rfl
  | succ m ih =>
    show iterNext1 (m + 1) (s.bind (fun st => (next st (some 1)).map Prod.snd)) =
      (iterNext1 (m + 1) s).bind (fun st => (next st (some 1)).map Prod.snd)
    rw [ih]
    rfl

/-! ### Claim theorems -/

/-- C5, counterexample: the store is not kept identical across refills.  On
the concrete buffer `bufA` (store allocation id 1 after construction), a
size-4 read triggers a refill whose `torch.roll` rebinds the store to a fresh
tensor (allocation id 2). -/
theorem C5_counterexample :
    bufA.storeId = 1 ∧
    (next bufA (some 4)).map (fun p => p.2.storeId) = some 2 ∧ (2 : Nat) ≠ 1 := by
  decide

/-- C5 (amended): the store is allocated at construction and then replaced by
the freshly allocated result of `torch.roll` at every refill; outside of
refills (reads that do not trigger one) the store binding is unchanged, and
within a refill the batch writes mutate the rolled store in place (the
allocation counter does not move during the loop). -/
theorem C5_store_reallocated :
    (∀ st st' : BufferState, refresh st = some st' →
      st'.storeId = st.nextAlloc ∧ st'.nextAlloc = st.nextAlloc + 1 ∧
        (st.storeId < st.nextAlloc → st'.storeId ≠ st.storeId)) ∧
    (∀ (st : BufferState) (batch : Option Nat) (out : NextOut) (st' : BufferState),
      next st batch = some (out, st') → st'.refreshes = st.refreshes →
      st'.storeId = st.storeId) := by
  constructor
  · intro st st' h
    have hf := refresh_frame h
    refine ⟨hf.2.2.1, hf.2.2.2.1, fun hlt heq => ?_⟩
    rw [hf.2.2.1] at heq
    omega
  · intro st batch out st' h href
    cases batch with
    | some b =>
      obtain ⟨st1, hcase, hout, hst'⟩ := next_some_eq h
      subst hst'
      have href' : st1.refreshes = st.refreshes := href
      rcases hcase with ⟨hc, hr⟩ | ⟨hc, rfl⟩
      · have := (refresh_frame hr).2.2.2.2.1
        omega
      · rfl
    | none =>
      obtain ⟨st1, c, hcase, hh, hout, hst'⟩ := next_none_eq h
      subst hst'
      have href' : st1.refreshes = st.refreshes := href
      rcases hcase with ⟨hc, hr⟩ | ⟨hc, rfl⟩
      · have := (refresh_frame hr).2.2.2.2.1
        omega
      · rfl

/-- C5, witness: the refill reached from two size-1 reads on `bufA`
reallocates the store: allocation id goes from 1 to 2 (the refill's roll),
and the next allocation counter advances. -/
theorem C5_witness :
    refreshedA.storeId = bufA2.nextAlloc ∧
      refreshedA.nextAlloc = bufA2.nextAlloc + 1 ∧ refreshedA.storeId ≠ bufA2.storeId :=
  have h := C5_store_reallocated.1 bufA2 refreshedA (by decide)
  ⟨h.1, h.2.1, h.2.2 (by decide)⟩

/-- C6, counterexample: the config constructor accepts a construction whose
layer list is not a list of integers (a single string) and whose
minimum-free-capacity 7 exceeds the capacity 4, contradicting the claim that
all such constructions are rejected. -/
theorem C6_counterexample :
    (ActivationsBufferConfig.build "m" [PyVal.vstr "a"] "d" "mlp.hook_pre" none
      4 7 2 2 (some 1) none "cuda" "bf16").isSome = true ∧ ¬ (7 < 4) := by
  decide

/-- C6 (amended): the constructor rejects exactly the empty layer list (the
assert) and layer lists whose elements Python's `max` cannot compare (mixed
int/str raise `TypeError`); element integer-ness on its own and all sizing
constraints are not validated, so acceptance is independent of
capacity, minimum-free-capacity, batch size and samples-per-sequence. -/
theorem C6_layer_validation :
    ∀ (mn : String) (layers : List PyVal) (dn site : String) (ds : Option String)
      (bs mc mbs sps : Nat) (asz : Option Nat) (seed : Option Int) (dev dt : String),
      (ActivationsBufferConfig.build mn layers dn site ds bs mc mbs sps
        asz seed dev dt).isSome = true ↔
        (layers ≠ [] ∧ (pyMax layers).isSome = true) := by
  intro mn layers dn site ds bs mc mbs sps asz seed dev dt
  unfold ActivationsBufferConfig.build
  by_cases h : layers.length > 0
  · rw [if_pos h]
    have hne : layers ≠ [] := by
      intro he
      rw [he] at h
      simp at h
    cases hm : pyMax layers <;> simp [hm, hne]
  · rw [if_neg h]
    have hnil : layers = [] := List.eq_nil_of_length_eq_zero (by omega)
    simp [hnil, pyMax]

/-- C8, counterexample: a read of size 5 on the capacity-4 buffer `bufA`
(read cursor 0) triggers a refill and then advances the cursor to 5,
violating `read_cursor ≤ capacity`. -/
theorem C8_counterexample :
    bufA.cfg.buffer_size = 4 ∧
    (next bufA (some 5)).map (fun p => p.2.buffer_pointer) = some 5 ∧ ¬ (5 ≤ 4) := by
  decide

/-- C8 (amended): construction and every refill leave `read_cursor = 0`
(hence within bounds), and every read whose effective count (`batch or 1`)
is at most the capacity preserves `read_cursor ≤ capacity` (the lower bound
holds structurally, the cursor being a natural number); reads of size greater
than the capacity violate the invariant. -/
theorem C8_cursor_bounded :
    (∀ (cfg : ActivationsBufferConfig) (corpus : List Nat) (d t a : Nat) (b : BufferState),
      ActivationsBuffer.init cfg corpus d t a = some b →
      b.buffer_pointer ≤ b.cfg.buffer_size) ∧
    (∀ st st' : BufferState, refresh st = some st' →
      st'.buffer_pointer ≤ st'.cfg.buffer_size) ∧
    (∀ (st : BufferState) (batch : Option Nat) (out : NextOut) (st' : BufferState),
      next st batch = some (out, st') →
      st.buffer_pointer ≤ st.cfg.buffer_size →
      effCount batch ≤ st.cfg.buffer_size →
      st'.cfg = st.cfg ∧ st'.buffer_pointer ≤ st.cfg.buffer_size) := by
  refine ⟨?_, ?_, ?_⟩
  · intro cfg corpus d t a b h
    rw [(refresh_frame h).2.2.2.2.2]
    exact Nat.zero_le _
  · intro st st' h
    rw [(refresh_frame h).2.2.2.2.2]
    exact Nat.zero_le _
  · intro st batch out st' h hbp heff
    have hkey : ∀ st1 : BufferState,
        ((lowWater st batch ∧ refresh st = some st1) ∨ (¬ lowWater st batch ∧ st1 = st)) →
        st1.cfg = st.cfg ∧ st1.buffer_pointer + effCount batch ≤ st.cfg.buffer_size := by
      intro st1 hcase
      rcases hcase with ⟨hc, hr⟩ | ⟨hc, rfl⟩
      · have hf := refresh_frame hr
        rw [hf.2.2.2.2.2]
        exact ⟨hf.1, by omega⟩
      · refine ⟨rfl, ?_⟩
        unfold lowWater at hc
        omega
    cases batch with
    | some b =>
      obtain ⟨st1, hcase, hout, hst'⟩ := next_some_eq h
      subst hst'
      exact (hkey st1 hcase).imp id (fun hle => hle)
    | none =>
      obtain ⟨st1, c, hcase, hh, hout, hst'⟩ := next_none_eq h
      subst hst'
      exact (hkey st1 hcase).imp id (fun hle => hle)

/-- C8, witness: on the concrete buffer `bufA` (capacity 4, cursor 0), a
size-2 read keeps the cursor within bounds. -/
theorem C8_witness :
    pairA3.2.cfg = bufA.cfg ∧ pairA3.2.buffer_pointer ≤ bufA.cfg.buffer_size :=
  C8_cursor_bounded.2.2 bufA (some 2) pairA3.1 pairA3.2 (by decide) (by decide) (by decide)

/-- C9, counterexample: with the seed configured to 0 the torch generator is
never seeded (`if cfg.seed:` is falsy), so two buffers built from the same
config and corpus but different ambient generator states draw different
sample positions in the very first refill round. -/
theorem C9_counterexample :
    cfg9.seed = some 0 ∧
    (ActivationsBuffer.init cfg9 [2, 2, 2, 2] 7 0 5).map
      (fun b => b.rounds.map (fun r => r.positions)) = some [[0]] ∧
    (ActivationsBuffer.init cfg9 [2, 2, 2, 2] 7 1 5).map
      (fun b => b.rounds.map (fun r => r.positions)) = some [[1]] ∧
    ([[0]] : List (List Nat)) ≠ [[1]] := by
  decide

/-- C9 (amended): for every configured nonzero seed, construction seeds both
the corpus shuffle and the sampling generator, so two buffers built from
equal configs are identical states regardless of the process's prior
generator or shuffle entropy — in particular they draw identical sample
positions in every refill round.  (Seed 0 is treated as unseeded by
`if cfg.seed:`, see the counterexample.) -/
theorem C9_seed_reproducibility :
    ∀ (cfg : ActivationsBufferConfig) (corpus : List Nat) (d t1 t2 a1 a2 : Nat) (s : Int),
      cfg.seed = some s → s ≠ 0 →
      ActivationsBuffer.init cfg corpus d t1 a1 = ActivationsBuffer.init cfg corpus d t2 a2 := by
  intro cfg corpus d t1 t2 a1 a2 s hs hs0
  unfold ActivationsBuffer.init initialState shuffleDataset
  rw [hs]
  simp [hs0]

/-- C9, witness: two constructions from the seed-7 config with different
prior torch states (10 versus 99) and different shuffle entropy (3 versus 4)
coincide. -/
theorem C9_witness :
    ActivationsBuffer.init cfgB [2, 2] 1 10 3 = ActivationsBuffer.init cfgB [2, 2] 1 99 4 :=
  C9_seed_reproducibility cfgB [2, 2] 1 10 99 3 4 7 rfl (by decide)

/-- C10: an explicit `next(0)` returns the empty slice (leading dimension 0)
yet advances the read cursor by 1, and its refill pre-check coincides with
the default size-1 pre-check, because `batch or 1` turns the falsy count 0
into 1 while the slice `buffer[p : p+0]` is empty. -/
theorem C10_next_zero :
    ∀ (st : BufferState) (out : NextOut) (st' : BufferState),
      next st (some 0) = some (out, st') →
      out = NextOut.batchOut [] ∧
      (st'.refreshes = st.refreshes + 1 ↔ lowWater st (some 1)) ∧
      (st'.refreshes = st.refreshes → st'.buffer_pointer = st.buffer_pointer + 1) ∧
      (st'.refreshes = st.refreshes + 1 → st'.buffer_pointer = 1) := by
  intro st out st' h
  obtain ⟨st1, hcase, hout, hst'⟩ := next_some_eq h
  subst hst'
  refine ⟨by rw [hout, List.take_zero], ?_, ?_, ?_⟩
  · rcases hcase with ⟨hc, hr⟩ | ⟨hc, rfl⟩
    · have hf := (refresh_frame hr).2.2.2.2.1
      have h1 : st1.refreshes = st.refreshes + 1 := hf
      exact iff_of_true h1 hc
    · refine iff_of_false (fun he => ?_) hc
      have : st1.refreshes = st1.refreshes + 1 := he
      omega
  · intro he
    rcases hcase with ⟨hc, hr⟩ | ⟨hc, rfl⟩
    · have hf : st1.refreshes = st.refreshes + 1 := (refresh_frame hr).2.2.2.2.1
      have he' : st1.refreshes = st.refreshes := he
      omega
    · show st1.buffer_pointer + effCount (some 0) = st1.buffer_pointer + 1
      rfl
  · intro he
    rcases hcase with ⟨hc, hr⟩ | ⟨hc, rfl⟩
    · have hf := refresh_frame hr
      show st1.buffer_pointer + effCount (some 0) = 1
      rw [hf.2.2.2.2.2]
      rfl
    · have : st1.refreshes = st1.refreshes + 1 := he
      omega

/-- C10, witness: on `bufA` (cursor 0, no refill due), `next(0)` returns the
empty slice and moves the cursor to 1. -/
theorem C10_witness :
    pairA0.1 = NextOut.batchOut [] ∧ pairA0.2.buffer_pointer = 1 :=
  have h := C10_next_zero bufA pairA0.1 pairA0.2 (by decide)
  ⟨h.1, by rw [h.2.2.1 (by decide)]; decide⟩

/-- C2: with a productive environment (nonempty corpus of nonempty sequences,
positive samples-per-sequence and positive model batch size), every refill
call terminates with read cursor 0 and a store of `capacity` written
activation matrices; in particular construction terminates, leaves the cursor
at 0 and no slot of the store still holds the zero-fill from allocation. -/
theorem C2_refresh_replenishes :
    (∀ st : BufferState, corpusOK st →
      st.buffer_pointer ≤ st.cfg.buffer_size →
      st.buffer.length = st.cfg.buffer_size →
      (∀ c ∈ st.buffer.drop st.buffer_pointer, cellOK st.cfg c) →
      st.dataset_pointer < st.dataset.length →
      (refresh st).isSome = true ∧
      ∀ st', refresh st = some st' →
        st'.buffer_pointer = 0 ∧ st'.buffer.length = st.cfg.buffer_size ∧
        ∀ c ∈ st'.buffer, cellOK st.cfg c) ∧
    (∀ (cfg : ActivationsBufferConfig) (corpus : List Nat) (d t a : Nat),
      corpus ≠ [] → (∀ l ∈ corpus, 1 ≤ l) →
      1 ≤ cfg.samples_per_seq → 1 ≤ cfg.model_batch_size →
      (ActivationsBuffer.init cfg corpus d t a).isSome = true ∧
      ∀ b, ActivationsBuffer.init cfg corpus d t a = some b →
        b.buffer_pointer = 0 ∧ b.buffer.length = cfg.buffer_size ∧
        ∀ c ∈ b.buffer, c.isSome = true) := by
  constructor
  · intro st hc hbp hlen hgood hdp
    refine ⟨refresh_total hc hbp hlen hgood hdp, ?_⟩
    intro st' h
    have hi := refresh_inv h hbp hlen hgood
    exact ⟨hi.2.2, hi.1, hi.2.1⟩
  · intro cfg corpus d t a h1 h2 h3 h4
    refine ⟨init_total h1 h2 h3 h4, ?_⟩
    intro b hb
    have hs := init_spec hb h1
    exact ⟨hs.1, hs.2.1, fun c hcm => cellOK_isSome (hs.2.2.1 c hcm)⟩

/-- C2, witness: the concrete construction from `cfgA` over the corpus
`[3, 3]` terminates with cursor 0 and a full store of length 4. -/
theorem C2_witness :
    (ActivationsBuffer.init cfgA [3, 3] 7 0 0).isSome = true ∧
      bufA.buffer_pointer = 0 ∧ bufA.buffer.length = 4 :=
  have h := C2_refresh_replenishes.2 cfgA [3, 3] 7 0 0 (by decide) (by decide)
    (by decide) (by decide)
  have h2 := h.2 bufA (by decide)
  ⟨h.1, h2.1, h2.2.1⟩

/-- C4: in every refill round, writes start at `capacity - deficit`, exactly
`min(sampled, deficit)` vectors are written (sampled vectors beyond the
deficit are discarded, nothing is carried over to the next round), and the
written segment never reaches an index at or beyond the capacity. -/
theorem C4_round_write_policy :
    ∀ (st st' : BufferState), refresh st = some st' →
      st.buffer_pointer ≤ st.cfg.buffer_size →
      st.buffer.length = st.cfg.buffer_size →
      (∀ c ∈ st.buffer.drop st.buffer_pointer, cellOK st.cfg c) →
      st.dataset_pointer < st.dataset.length →
      st'.rounds.take st.rounds.length = st.rounds ∧
      ∀ r ∈ st'.rounds.drop st.rounds.length,
        r.writeStart = st.cfg.buffer_size - r.bpBefore ∧
        r.written = min r.sampled r.bpBefore ∧
        r.writeStart + r.written ≤ st.cfg.buffer_size := by
  intro st st' h hbp hlen hgood hdp
  obtain ⟨⟨new, hnew, hok⟩, _⟩ := refresh_rounds h hbp hlen hgood hdp
  rw [hnew]
  refine ⟨List.take_left _ _, ?_⟩
  rw [List.drop_left]
  intro r hr
  obtain ⟨h1, h2, h3, _, _⟩ := hok r hr
  exact ⟨h1, h2, h3⟩

/-- C4, witness: the second round of the concrete refill from `bufA2`
(deficit 2) writes at slot `capacity - deficit`, writes `min(sampled,
deficit)` vectors, and stays within capacity. -/
theorem C4_witness :
    (refreshedA.rounds.getD 1 dummyRound).writeStart =
        bufA2.cfg.buffer_size - (refreshedA.rounds.getD 1 dummyRound).bpBefore ∧
      (refreshedA.rounds.getD 1 dummyRound).written =
        min (refreshedA.rounds.getD 1 dummyRound).sampled
          (refreshedA.rounds.getD 1 dummyRound).bpBefore ∧
      (refreshedA.rounds.getD 1 dummyRound).writeStart +
          (refreshedA.rounds.getD 1 dummyRound).written ≤ bufA2.cfg.buffer_size :=
  (C4_round_write_policy bufA2 refreshedA (by decide) (by decide) (by decide)
    (by decide) (by decide)).2 (refreshedA.rounds.getD 1 dummyRound) (by decide)

/-- C7, counterexample: with batch size 4 over a 3-sequence corpus, the first
refill round requests 4 sequences but the truncating slice returns only 3 —
the corpus read does not wrap mid-slice to return the requested count. -/
theorem C7_counterexample :
    (ActivationsBuffer.init cfg7 [1, 1, 1] 7 0 0).map
      (fun b => b.rounds.map (fun r => (r.requested, r.got))) =
        some [(4, 3), (1, 1)] ∧ (3 : Nat) ≠ 4 := by
  decide

/-- C7 (amended): each refill round's corpus read returns
`min(requested, corpus length - corpus cursor)` sequences — the slice
truncates at the corpus end instead of wrapping mid-slice — while the cursor
itself always wraps back into `[0, corpus length)` and no error arises from
the wraparound (the following round simply reads from the wrapped cursor). -/
theorem C7_corpus_slice :
    ∀ (st st' : BufferState), refresh st = some st' →
      st.buffer_pointer ≤ st.cfg.buffer_size →
      st.buffer.length = st.cfg.buffer_size →
      (∀ c ∈ st.buffer.drop st.buffer_pointer, cellOK st.cfg c) →
      st.dataset_pointer < st.dataset.length →
      (∀ r ∈ st'.rounds.drop st.rounds.length,
        r.got = min r.requested (st.dataset.length - r.dpBefore) ∧
        r.dpAfter < st.dataset.length) ∧
      st'.dataset_pointer < st.dataset.length := by
  intro st st' h hbp hlen hgood hdp
  obtain ⟨⟨new, hnew, hok⟩, hdp'⟩ := refresh_rounds h hbp hlen hgood hdp
  refine ⟨?_, hdp'⟩
  rw [hnew, List.drop_left]
  intro r hr
  obtain ⟨_, _, _, h4, h5⟩ := hok r hr
  exact ⟨h4, h5⟩

/-- C7, witness: in the concrete refill from `bufA2` over the length-2
corpus, the second round's read length is `min(requested, remaining)` and the
cursor stays in range. -/
theorem C7_witness :
    (refreshedA.rounds.getD 1 dummyRound).got =
        min (refreshedA.rounds.getD 1 dummyRound).requested
          (bufA2.dataset.length - (refreshedA.rounds.getD 1 dummyRound).dpBefore) ∧
      (refreshedA.rounds.getD 1 dummyRound).dpAfter < bufA2.dataset.length :=
  (C7_corpus_slice bufA2 refreshedA (by decide) (by decide) (by decide)
    (by decide) (by decide)).1 (refreshedA.rounds.getD 1 dummyRound) (by decide)

/-- C1, counterexample: on the buffer `bufA2` (capacity 4, low-water mark 2,
read cursor 2), the claim's formula for an explicit count of 0 is
`4 - (2 + 0) < 2`, which is false, yet `next(0)` does trigger a refill
because the code evaluates `batch or 1`, turning the count 0 into 1. -/
theorem C1_counterexample :
    bufA2.buffer_pointer = 2 ∧ bufA2.refreshes = 1 ∧
    ¬ ((bufA2.cfg.buffer_size : Int) - (bufA2.buffer_pointer + 0) <
        bufA2.cfg.min_capacity) ∧
    (next bufA2 (some 0)).map (fun p => p.2.refreshes) = some 2 := by
  decide

/-- C1 (amended): a call `next(batch)` triggers a refill exactly when
`buffer_size - (buffer_pointer + (batch or 1)) < min_capacity` holds at call
time (the claim's formula with the raw count fails only at the falsy count 0,
see the counterexample); and driving a freshly constructed buffer with size-1
reads performs zero refills through read `capacity - min_capacity` (the
cursor just advances, one per read) and exactly one refill at read
`capacity - min_capacity + 1`, the first read whose pre-check fires. -/
theorem C1_refill_trigger :
    (∀ (st : BufferState) (batch : Option Nat) (out : NextOut) (st' : BufferState),
      next st batch = some (out, st') →
      (st'.refreshes = st.refreshes + 1 ↔ lowWater st batch)) ∧
    (∀ (cfg : ActivationsBufferConfig) (corpus : List Nat) (d t a : Nat)
        (b0 : BufferState),
      ActivationsBuffer.init cfg corpus d t a = some b0 →
      corpus ≠ [] → (∀ l ∈ corpus, 1 ≤ l) →
      1 ≤ cfg.samples_per_seq → 1 ≤ cfg.model_batch_size →
      cfg.min_capacity ≤ cfg.buffer_size →
      (∀ k, k + cfg.min_capacity ≤ cfg.buffer_size →
        iterNext1 k (some b0) = some { b0 with buffer_pointer := k }) ∧
      (iterNext1 (cfg.buffer_size - cfg.min_capacity + 1) (some b0)).map
        (fun s => (s.refreshes, s.buffer_pointer)) = some (2, 1)) := by
  constructor
  · intro st batch out st' h
    have key : ∀ st1 : BufferState,
        ((lowWater st batch ∧ refresh st = some st1) ∨
          (¬ lowWater st batch ∧ st1 = st)) →
        (st1.refreshes = st.refreshes + 1 ↔ lowWater st batch) := by
      intro st1 hcase
      rcases hcase with ⟨hc, hr⟩ | ⟨hc, rfl⟩
      · exact iff_of_true (refresh_frame hr).2.2.2.2.1 hc
      · exact iff_of_false (by omega) hc
    cases batch with
    | some b =>
      obtain ⟨st1, hcase, hout, hst'⟩ := next_some_eq h
      subst hst'
      exact key st1 hcase
    | none =>
      obtain ⟨st1, c, hcase, hh, hout, hst'⟩ := next_none_eq h
      subst hst'
      exact key st1 hcase
  · intro cfg corpus d t a b0 hinit hcne hclen hsps hmbs hMC
    obtain ⟨hbp0, hblen, hbgood, hbdp, hrefr, _, _, hbcfg, hbds⟩ := init_spec hinit hcne
    have hC : b0.cfg.buffer_size = cfg.buffer_size := by rw [hbcfg]
    have hM : b0.cfg.min_capacity = cfg.min_capacity := by rw [hbcfg]
    have hsps' : 1 ≤ b0.cfg.samples_per_seq := by rw [hbcfg]; exact hsps
    have hmbs' : 1 ≤ b0.cfg.model_batch_size := by rw [hbcfg]; exact hmbs
    have hds_ne : b0.dataset ≠ [] := by
      rw [hbds]
      intro he
      apply hcne
      have hl := shuffleDataset_length cfg.seed a corpus
      rw [he] at hl
      exact List.eq_nil_of_length_eq_zero hl.symm
    have hds_mem : ∀ l ∈ b0.dataset, 1 ≤ l := by
      rw [hbds]
      intro l hl
      exact hclen l (shuffleDataset_mem.1 hl)
    have hcorp : corpusOK b0 := ⟨hds_ne, hds_mem, hsps', hmbs'⟩
    have hreads : ∀ k, k + cfg.min_capacity ≤ cfg.buffer_size →
        iterNext1 k (some b0) = some { b0 with buffer_pointer := k } := by
      intro k
      induction k with
      | zero =>
        intro hk
        show some b0 = some { b0 with buffer_pointer := 0 }
        rw [← hbp0]
      | succ k ih =>
        intro hk
        have hk' : k + cfg.min_capacity ≤ cfg.buffer_size := by omega
        rw [iterNext1_succ_right, ih hk', Option.some_bind]
        have hnw : ¬ lowWater { b0 with buffer_pointer := k } (some 1) := by
          show ¬ ((b0.cfg.buffer_size : Int) - (k + ((effCount (some 1) : Nat) : Int)) <
            b0.cfg.min_capacity)
          rw [hC, hM, show effCount (some 1) = 1 from rfl]
          push_cast
          omega
        rw [next_one_no_refresh hnw]
        rfl
    refine ⟨hreads, ?_⟩
    have hstK := hreads (cfg.buffer_size - cfg.min_capacity) (by omega)
    rw [iterNext1_succ_right, hstK, Option.some_bind]
    have hlw : lowWater { b0 with buffer_pointer := cfg.buffer_size - cfg.min_capacity }
        (some 1) := by
      show (b0.cfg.buffer_size : Int) -
          ((cfg.buffer_size - cfg.min_capacity : Nat) + ((effCount (some 1) : Nat) : Int)) <
        b0.cfg.min_capacity
      rw [hC, hM, show effCount (some 1) = 1 from rfl]
      push_cast
      omega
    have hsome : (refresh
        { b0 with buffer_pointer := cfg.buffer_size - cfg.min_capacity }).isSome := by
      refine @refresh_total { b0 with buffer_pointer := cfg.buffer_size - cfg.min_capacity }
        hcorp ?_ ?_ ?_ ?_
      · show cfg.buffer_size - cfg.min_capacity ≤ b0.cfg.buffer_size
        rw [hC]
        omega
      · show b0.buffer.length = b0.cfg.buffer_size
        rw [hC]
        exact hblen
      · intro c hcm
        exact hbgood c (List.mem_of_mem_drop hcm)
      · exact hbdp
    obtain ⟨st1, hr⟩ := Option.isSome_iff_exists.1 hsome
    have hf := refresh_frame hr
    have hnextK : next { b0 with buffer_pointer := cfg.buffer_size - cfg.min_capacity }
        (some 1) =
        some (NextOut.batchOut ((st1.buffer.drop st1.buffer_pointer).take 1),
          { st1 with buffer_pointer := st1.buffer_pointer + effCount (some 1) }) := by
      unfold next
      rw [if_pos hlw, hr]
      rfl
    rw [hnextK]
    simp only [Option.map_some']
    show some (st1.refreshes, st1.buffer_pointer + 1) = some (2, 1)
    have h1 : st1.refreshes = 2 := by
      have hx : st1.refreshes =
          ({ b0 with buffer_pointer := cfg.buffer_size - cfg.min_capacity } :
            BufferState).refreshes + 1 := hf.2.2.2.2.1
      rw [hx]
      show b0.refreshes + 1 = 2
      rw [hrefr]
    have h2 : st1.buffer_pointer = 0 := hf.2.2.2.2.2
    rw [h1, h2]

/-- C1, witness: on the concrete buffer from `cfgA` (capacity 4, low-water
mark 2), two size-1 reads trigger no refill and leave the cursor at 2, and
the third read triggers exactly one refill, ending with the refill count at 2
(construction itself was the first) and the cursor at 1. -/
theorem C1_witness :
    iterNext1 2 (some bufA) = some { bufA with buffer_pointer := 2 } ∧
    (iterNext1 3 (some bufA)).map (fun s => (s.refreshes, s.buffer_pointer)) =
      some (2, 1) :=
  have h := C1_refill_trigger.2 cfgA [3, 3] 7 0 0 bufA (by decide) (by decide)
    (by decide) (by decide) (by decide) (by decide)
  ⟨h.1 2 (by decide), h.2⟩

/-- C3, counterexample: `next(0)` returns the empty slice, whose leading
dimension 0 does equal the count, but advances the read cursor by 1 rather
than by the count 0. -/
theorem C3_counterexample :
    bufA.buffer_pointer = 0 ∧
    (next bufA (some 0)).map (fun p => (p.1, p.2.buffer_pointer)) =
      some (NextOut.batchOut [], 1) ∧ (1 : Nat) ≠ 0 := by
  decide

/-- C3 (amended): for `1 ≤ count ≤ capacity`, `next(count)` returns exactly
`count` cells, each a written activation matrix of shape (layers, width) per
the config, and they are the `count` consecutive cells starting at the
post-refill read cursor, which then advances by exactly `count` (from its
pre-call value when no refill fires, from 0 when one does); the default
`next()` likewise returns one such cell and advances by 1.  An explicit count
of 0 instead advances the cursor by 1, see the counterexample; a count above
the capacity returns fewer than `count` cells. -/
theorem C3_next_shape :
    (∀ (st : BufferState) (count : Nat) (out : NextOut) (st' : BufferState),
      next st (some count) = some (out, st') →
      1 ≤ count → count ≤ st.cfg.buffer_size →
      st.buffer_pointer ≤ st.cfg.buffer_size →
      st.buffer.length = st.cfg.buffer_size →
      (∀ c ∈ st.buffer.drop st.buffer_pointer, cellOK st.cfg c) →
      ∃ cs, out = NextOut.batchOut cs ∧ cs.length = count ∧
        (∀ c ∈ cs, cellOK st.cfg c) ∧
        count ≤ st'.buffer_pointer ∧
        cs = (st'.buffer.drop (st'.buffer_pointer - count)).take count ∧
        (¬ lowWater st (some count) → st'.buffer_pointer = st.buffer_pointer + count) ∧
        (lowWater st (some count) → st'.buffer_pointer = count)) ∧
    (∀ (st : BufferState) (out : NextOut) (st' : BufferState),
      next st none = some (out, st') →
      st.buffer_pointer ≤ st.cfg.buffer_size →
      st.buffer.length = st.cfg.buffer_size →
      (∀ c ∈ st.buffer.drop st.buffer_pointer, cellOK st.cfg c) →
      ∃ c, out = NextOut.single c ∧ cellOK st.cfg c ∧
        (¬ lowWater st none → st'.buffer_pointer = st.buffer_pointer + 1) ∧
        (lowWater st none → st'.buffer_pointer = 1)) := by
  constructor
  · intro st count out st' h h1 h2 hbp hlen hgood
    obtain ⟨st1, hcase, hout, hst'⟩ := next_some_eq h
    have heff : effCount (some count) = count := effCount_eq h1
    subst hst'
    rcases hcase with ⟨hc, hr⟩ | ⟨hc, hceq⟩
    · have hi := refresh_inv hr hbp hlen hgood
      refine ⟨(st1.buffer.drop st1.buffer_pointer).take count, hout, ?_, ?_, ?_, ?_, ?_, ?_⟩
      · rw [List.length_take, List.length_drop, hi.2.2, hi.1]
        omega
      · intro c hcm
        exact hi.2.1 c (List.mem_of_mem_drop (List.mem_of_mem_take hcm))
      · show count ≤ st1.buffer_pointer + effCount (some count)
        rw [heff]
        omega
      · show (st1.buffer.drop st1.buffer_pointer).take count =
          (st1.buffer.drop (st1.buffer_pointer + effCount (some count) - count)).take count
        rw [heff]
        congr 2
        omega
      · intro hnc
        exact absurd hc hnc
      · intro _
        show st1.buffer_pointer + effCount (some count) = count
        rw [hi.2.2, heff]
        omega
    · subst hceq
      have hle : st1.buffer_pointer + count ≤ st1.cfg.buffer_size := by
        unfold lowWater at hc
        rw [heff] at hc
        omega
      refine ⟨(st1.buffer.drop st1.buffer_pointer).take count, hout, ?_, ?_, ?_, ?_, ?_, ?_⟩
      · rw [List.length_take, List.length_drop, hlen]
        omega
      · intro c hcm
        exact hgood c (List.mem_of_mem_take hcm)
      · show count ≤ st1.buffer_pointer + effCount (some count)
        rw [heff]
        omega
      · show (st1.buffer.drop st1.buffer_pointer).take count =
          (st1.buffer.drop (st1.buffer_pointer + effCount (some count) - count)).take count
        rw [heff]
        congr 2
        omega
      · intro _
        show st1.buffer_pointer + effCount (some count) = st1.buffer_pointer + count
        rw [heff]
      · intro hcc
        exact absurd hcc hc
  · intro st out st' h hbp hlen hgood
    obtain ⟨st1, c, hcase, hh, hout, hst'⟩ := next_none_eq h
    subst hst'
    have hcmem : ∀ st2 : BufferState, (st2.buffer.drop st2.buffer_pointer).head? = some c →
        c ∈ st2.buffer.drop st2.buffer_pointer := by
      intro st2 hh2
      cases hd : st2.buffer.drop st2.buffer_pointer with
      | nil => rw [hd] at hh2; cases hh2
      | cons x t =>
        rw [hd] at hh2
        simp only [List.head?_cons, Option.some.injEq] at hh2
        rw [← hh2]
        exact List.mem_cons_self x t
    rcases hcase with ⟨hc, hr⟩ | ⟨hc, hceq⟩
    · have hi := refresh_inv hr hbp hlen hgood
      refine ⟨c, hout, ?_, ?_, ?_⟩
      · exact hi.2.1 c (List.mem_of_mem_drop (hcmem st1 hh))
      · intro hnc
        exact absurd hc hnc
      · intro _
        show st1.buffer_pointer + 1 = 1
        rw [hi.2.2]
    · subst hceq
      refine ⟨c, hout, ?_, ?_, ?_⟩
      · exact hgood c (hcmem st1 hh)
      · intro _
        rfl
      · intro hcc
        exact absurd hcc hc

/-- C3, witness: the size-2 read on the freshly constructed buffer advances
the cursor from 0 to exactly 2. -/
theorem C3_witness : pairA3.2.buffer_pointer = 2 := by
  obtain ⟨cs, hA, hB, hC2, hD, hE, hF, hG⟩ :=
    C3_next_shape.1 bufA 2 pairA3.1 pairA3.2 (by decide) (by decide) (by decide)
      (by decide) (by decide) (by decide)
  rw [hF (by decide)]
  decide
